import Mathlib

/-
Verification of the domainify value-object core.

This file shallowly embeds the value-object factory (src/unnamed/part_000,
the `valueObject` function and the `create` / `equals` / `valueOf` /
`extend` closures it builds), the schema adapter
(src/packages/core/src/valueObjects/schema.js), and — modelled from the
spec, because its implementation is not under src/ — the entity `update`
operation, and proves the frozen claims about them.

Modelling conventions:
* JavaScript primitives are `Prim` (strings, numbers as `Int`, booleans);
  floating-point corner cases (NaN) are outside the model because the Zod
  number schema rejects NaN.
* Object reference identity is an explicit `Nat` oid; `===` on objects is
  oid equality, on primitives it is value equality.  Theorems that need two
  objects to be distinct carry an oid-freshness hypothesis.
* A value-object instance stores the parsed data and the names of the
  custom methods bound onto it.  Custom method bodies are opaque: the
  methods factory is modelled by its observable result, a list of method
  names or a thrown error.  Theorems about the standard `equals`/`valueOf`
  behaviour assume the custom methods do not shadow those names.
* The standard methods are bound to the intermediate `prototype` object
  literal (part_000 line 70, bindings on lines 168-170), not to the frozen
  object returned to the caller.  So inside `valueOf` and `equals`, `this`
  is the prototype: a reference-distinct object that carries the validated
  fields and the three standard methods but no custom methods.  The model
  keeps the prototype's identity in `protoOid` and exposes it as
  `VOInstance.proto`.
* The character properties JavaScript creates when a string is spread into
  an object are not modelled; theorems about composite instances assume
  object-shaped validated data.
-/

namespace Domainify

/-- A JavaScript primitive value: string, number or boolean. -/
inductive Prim where
  | str (s : String)
  | num (n : Int)
  | bool (b : Bool)
deriving DecidableEq, Repr

/-- A JavaScript value as it appears as an object field: a primitive, or a
reference to another object (identified by its oid).  `===` on refs is oid
equality, matching JavaScript reference equality. -/
inductive JsValue where
  | prim (p : Prim)
  | ref (oid : Nat)
deriving DecidableEq, Repr

/-- The result of a successful `schema.parse`: a primitive or an object
given by its own enumerable fields. -/
inductive JsData where
  | prim (p : Prim)
  | obj (fields : List (String × JsValue))
deriving DecidableEq, Repr

/-- Property lookup in a field list (first match wins, as in a JS object
where keys are unique). -/
def lookupProp : List (String × JsValue) → String → Option JsValue
  | [], _ => none
  | (k, v) :: rest, key => if k = key then some v else lookupProp rest key

/-- A value-object instance as built by `create` (part_000 lines 166-172):
the spread validated data, the three standard methods bound to the
intermediate prototype, and the bound custom methods, frozen.  `oid` is
the frozen instance's reference identity, `protoOid` the identity of the
prototype object the standard methods are bound to (line 70), and
`dataOid` the identity of the `validatedData` object captured by the
closures. -/
structure VOInstance where
  oid : Nat
  protoOid : Nat
  dataOid : Nat
  isPrimitive : Bool
  frozen : Bool
  validatedData : JsData
  customMethods : List String
deriving DecidableEq, Repr

/-- Any JavaScript value an operation may receive: a primitive, a plain
object (own data fields plus own function-valued property names), or a
value-object instance. -/
inductive JsEntity where
  | prim (p : Prim)
  | plainObj (oid : Nat) (fields : List (String × JsValue)) (fnProps : List String)
  | inst (v : VOInstance)
deriving DecidableEq, Repr

/-- The errors the core can raise or see raised:
* `zodError` — a raw validation-engine error (a thrown ZodError with its
  field-level messages);
* `validationError` — the library's ValidationError (message, the
  underlying issue list, the object type name, the offending input);
* `configurationError` — a plain Error thrown at construction or
  extension time;
* `otherError` — any other exception (for example one thrown by a custom
  methods factory), identified by an opaque tag. -/
inductive JsError where
  | zodError (issues : List String)
  | validationError (message : String) (issues : List String)
      (objectType : String) (input : JsEntity)
  | configurationError (message : String)
  | otherError (tag : Nat)
deriving DecidableEq, Repr

/-- The declared base kind of a Zod schema (`schema.constructor.name`),
used by the primitive-wrapper classification in part_000 lines 49-53. -/
inductive SchemaKind where
  | string
  | number
  | boolean
  | other
deriving DecidableEq, Repr

/-- The external validation-engine contract: a base kind for primitive
detection and a parse operation that returns validated data or throws. -/
structure Schema where
  kind : SchemaKind
  parse : JsEntity → Except JsError JsData

/-- The observable result of invoking a methods factory: the names of the
returned methods, or the error it throws. -/
abbrev MethodsResult := Except JsError (List String)

/-- A constructed value-object factory.  `isPrimitive` is computed once at
construction time (part_000 lines 49-53); `overrideIsPrimitive` is kept
because `extend` forwards it (line 233). -/
structure Factory where
  name : String
  schema : Schema
  methodsFactory : MethodsResult
  overrideIsPrimitive : Bool
  isPrimitive : Bool

/-- The options record passed to `valueObject`; `none` models an absent
schema or a `methodsFactory` that is not callable. -/
structure ValueObjectOptions where
  name : String
  schema : Option Schema
  methodsFactory : Option MethodsResult
  overrideIsPrimitive : Bool

/-- `valueObject` (part_000 lines 38-53 and 238-242): construction-time
validation, then the primitive-wrapper classification. -/
def valueObject (opts : ValueObjectOptions) : Except JsError Factory :=
  if opts.name = "" then
    .error (.configurationError "Value object name is required")
  else
    match opts.schema with
    | none => .error (.configurationError "Value object schema is required")
    | some s =>
      match opts.methodsFactory with
      | none => .error (.configurationError "Method factory is required")
      | some mf =>
          .ok { name := opts.name
                schema := s
                methodsFactory := mf
                overrideIsPrimitive := opts.overrideIsPrimitive
                isPrimitive :=
                  (s.kind = .string || s.kind = .number || s.kind = .boolean
                    || opts.overrideIsPrimitive) }

/-- The catch clause of `create` (part_000 lines 173-182): a ZodError is
wrapped into a ValidationError carrying the joined field messages, the type
name and the offending input; every other error is rethrown unchanged. -/
def wrapZod (name : String) (input : JsEntity) (e : JsError) : JsError :=
  match e with
  | .zodError issues =>
      .validationError ("Invalid " ++ name ++ ": " ++ String.intercalate ", " issues)
        issues name input
  | e => e

/-- `create` (part_000 lines 61-183): parse the data through the schema,
invoke the methods factory, and return the frozen instance.  Both the parse
and the methods-factory invocation sit inside the same try block, so a
ZodError from either is wrapped and any other error propagates.  The three
oid arguments are the fresh identities of the new frozen instance, of the
prototype object, and of the parsed-data object. -/
def create (f : Factory) (data : JsEntity) (oid protoOid dataOid : Nat) :
    Except JsError VOInstance :=
  match f.schema.parse data with
  | .error e => .error (wrapZod f.name data e)
  | .ok validatedData =>
    match f.methodsFactory with
    | .error e => .error (wrapZod f.name data e)
    | .ok methodNames =>
        .ok { oid := oid
              protoOid := protoOid
              dataOid := dataOid
              isPrimitive := f.isPrimitive
              frozen := true
              validatedData := validatedData
              customMethods := methodNames }

/-- The names of the three standard methods every instance carries. -/
def stdMethodNames : List String := ["valueOf", "equals", "toString"]

/-- Viewing parsed data as a JavaScript value: a primitive stays a
primitive, an object is the `validatedData` object with the given oid. -/
def JsData.asEntity (d : JsData) (objOid : Nat) : JsEntity :=
  match d with
  | .prim p => .prim p
  | .obj fields => .plainObj objOid fields []

/-- The prototype object literal of part_000 line 70, as the JavaScript
value `this` denotes inside the three standard methods (they are bound to
it on lines 168-170): the spread validated data plus the three standard
methods, and no custom methods.  It is reference-distinct from the frozen
instance and not frozen itself. -/
def VOInstance.proto (v : VOInstance) : JsEntity :=
  match v.validatedData with
  | .obj fields => .plainObj v.protoOid fields stdMethodNames
  | .prim _ => .plainObj v.protoOid [] stdMethodNames

/-- The own enumerable data-ish fields of a value. For an instance these
are the spread `validatedData` fields (string character spread is not
modelled). -/
def entityFields : JsEntity → List (String × JsValue)
  | .prim _ => []
  | .plainObj _ fields _ => fields
  | .inst v =>
    match v.validatedData with
    | .obj fields => fields
    | .prim _ => []

/-- The names of the own function-valued properties of a value.  For an
instance: the three standard methods plus the bound custom methods, which
shadow identically named data fields (part_000 lines 166-172). -/
def entityFnProps : JsEntity → List String
  | .prim _ => []
  | .plainObj _ _ fnProps => fnProps
  | .inst v => stdMethodNames ++ v.customMethods

/-- The value of an own property: a function, a data value, or absent. -/
inductive PropVal where
  | val (v : JsValue)
  | fn
deriving DecidableEq, Repr

/-- `other[prop]` restricted to own properties (`hasOwnProperty` plus the
read used on line 127). -/
def entityOwnProp (x : JsEntity) (k : String) : Option PropVal :=
  if (entityFnProps x).contains k then some .fn
  else (lookupProp (entityFields x) k).map PropVal.val

/-- The own non-function properties of a value — the `dataProps` computed
by `equals` on part_000 lines 114-119. -/
def entityDataProps (x : JsEntity) : List (String × JsValue) :=
  (entityFields x).filter (fun kv => !(entityFnProps x).contains kv.1)

/-- Reference identity of an object value (unused for primitives). -/
def entityOid : JsEntity → Nat
  | .prim _ => 0
  | .plainObj oid _ _ => oid
  | .inst v => v.oid

/-- JavaScript `===`: value equality on primitives, reference (oid)
equality between objects, false across the primitive/object divide. -/
def strictEqEntity : JsEntity → JsEntity → Bool
  | .prim p, .prim q => p == q
  | .prim _, .plainObj _ _ _ => false
  | .prim _, .inst _ => false
  | .plainObj _ _ _, .prim _ => false
  | .inst _, .prim _ => false
  | a, b => entityOid a == entityOid b

/-- The instance `valueOf` (part_000 lines 77-90): for primitive wrappers
the captured `primitiveValue` (which is the validated data); otherwise, if
the validated data has exactly one key whose value is not object-typed,
that value; otherwise `this` — which, because the method is bound to the
prototype (line 168), is the prototype object, not the frozen instance the
caller holds.  The string cases mirror `Object.keys` on a string-valued
`validatedData` (its character keys). -/
def VOInstance.valueOf (v : VOInstance) : JsEntity :=
  if v.isPrimitive then v.validatedData.asEntity v.dataOid
  else
    match v.validatedData with
    | .obj [(_, .prim p)] => .prim p
    | .obj _ => v.proto
    | .prim (.str s) => if s.length = 1 then .prim (.str s) else v.proto
    | .prim _ => v.proto

/-- `valueOf` as seen through a property access `other.valueOf()`: every
non-nullish JavaScript value has one; the default (primitive autoboxing,
`Object.prototype.valueOf`) returns the value itself. -/
def entityValueOf : JsEntity → JsEntity
  | .prim p => .prim p
  | .plainObj oid fields fnProps => .plainObj oid fields fnProps
  | .inst v => v.valueOf

/-- The per-property check of the `equals` loop (part_000 lines 125-130):
`other` must have the own property, holding a non-function value that is
`===`-equal to this instance's value. -/
def equalsPropCheck (o : JsEntity) (kv : String × JsValue) : Bool :=
  match entityOwnProp o kv.1 with
  | some (.val w) => kv.2 == w
  | _ => false

/-- The instance `equals` (part_000 lines 99-133): false for nullish,
true on reference identity, `valueOf` comparison for primitive wrappers,
otherwise own non-function property-by-property comparison with `===`.
Because the method is bound to the prototype (line 169), `this` is the
prototype: the reference check compares the prototype's identity with
`other`, and the this-side property set is the prototype's — the validated
fields with only the three standard method names shadowed, custom methods
not among them. -/
def VOInstance.equals (v : VOInstance) (other : Option JsEntity) : Bool :=
  match other with
  | none => false
  | some o =>
    if strictEqEntity v.proto o then true
    else if v.isPrimitive then
      strictEqEntity v.valueOf (entityValueOf o)
    else
      (entityDataProps v.proto).length == (entityDataProps o).length &&
      (entityDataProps v.proto).all (equalsPropCheck o)

/-- Overwriting one property in a field list (plain JS assignment). -/
def setProp : List (String × JsValue) → String → JsValue → List (String × JsValue)
  | [], k, val => [(k, val)]
  | (k2, w) :: rest, k, val =>
      if k2 = k then (k2, val) :: rest else (k2, w) :: setProp rest k val

/-- Writing a field of parsed data. -/
def writeField : JsData → String → JsValue → JsData
  | .prim p, _, _ => .prim p
  | .obj fields, k, val => .obj (setProp fields k val)

/-- A JavaScript property write on an instance.  On a frozen object
(`Object.freeze`, part_000 line 166) the write is a silent no-op. -/
def setField (v : VOInstance) (k : String) (val : JsValue) : VOInstance :=
  if v.frozen then v
  else { v with validatedData := writeField v.validatedData k val }

/-- The options record passed to `extend`; `methodsFactory = none` models a
value that is not callable — an absent argument or, as in
src/packages/core/src/valueObjects/primitives/IntegerNumber.js, a
`methods` object passed where a `methodsFactory` function is expected. -/
structure ExtendOptions where
  name : String
  schemaTransformer : Option (Schema → Schema)
  methodsFactory : Option MethodsResult

/-- Merging the parent's method set with the child's, child winning on a
name collision (part_000 lines 222-225). -/
def mergeMethodNames (parentMs childMs : List String) : List String :=
  parentMs.filter (fun m => !childMs.contains m) ++ childMs

/-- The combined methods factory built by `extend` (part_000 lines
213-226): invoke the parent's factory, then the child's, and merge; an
error from either propagates. -/
def combineMethodsFactories (parentMF childMF : MethodsResult) : MethodsResult :=
  match parentMF with
  | .error e => .error e
  | .ok parentMs =>
    match childMF with
    | .error e => .error e
    | .ok childMs => .ok (mergeMethodNames parentMs childMs)

/-- `extend` (part_000 lines 194-235): configuration checks, schema
transformation, method combination, then a fresh `valueObject` call
forwarding `overrideIsPrimitive`. -/
def extend (parent : Factory) (opts : ExtendOptions) : Except JsError Factory :=
  if opts.name = "" then
    .error (.configurationError "Extended value object name is required")
  else
    match opts.methodsFactory with
    | none => .error (.configurationError "Method factory is required for extension")
    | some childMF =>
        let extendedSchema :=
          match opts.schemaTransformer with
          | some t => t parent.schema
          | none => parent.schema
        valueObject
          { name := opts.name
            schema := some extendedSchema
            methodsFactory := some (combineMethodsFactories parent.methodsFactory childMF)
            overrideIsPrimitive := parent.overrideIsPrimitive }

/-- The duck-typed value-object test of `valueObjectSchema` (schema.js
line 17): the value must be an object exposing a function-typed `equals`.
Instances always carry one. -/
def isValueObjectCheck : Option JsEntity → Bool
  | none => false
  | some (.prim _) => false
  | some (.plainObj _ _ fnProps) => fnProps.contains "equals"
  | some (.inst _) => true

/-- The acceptance function of the schema built by `valueObjectSchema`
(schema.js lines 15-25): the duck-typed check, narrowed by the optional
custom predicate when one is supplied. -/
def valueObjectAccepts (typeCheck : Option (JsEntity → Bool)) (val : Option JsEntity) :
    Bool :=
  match val with
  | none => false
  | some v =>
    match typeCheck with
    | some tc => isValueObjectCheck (some v) && tc v
    | none => isValueObjectCheck (some v)

/-- The `typeCheck` closure of `specificValueObjectSchema` (schema.js lines
57-66): re-create from `val.valueOf()` and compare with `equals`; any
thrown error means false.  The oid arguments are the fresh identities used
by the `create` call. -/
def specificTypeCheck (f : Factory) (oid protoOid dataOid : Nat)
    (val : JsEntity) : Bool :=
  match create f (entityValueOf val) oid protoOid dataOid with
  | .ok recreated => recreated.equals (some val)
  | .error _ => false

/-- The acceptance function of the schema built by
`specificValueObjectSchema` (schema.js lines 38-68). -/
def specificAccepts (f : Factory) (oid protoOid dataOid : Nat)
    (val : Option JsEntity) : Bool :=
  valueObjectAccepts (some (specificTypeCheck f oid protoOid dataOid)) val

/-- Modelled from the spec: the entity factory implementation
(the entities `Base.js`) is not under src/ — only its declaration file
src/packages/core/src/entities/Base.d.ts is.  An entity's mutable state:
its current fields and, when historizing, the ordered log of pre-update
snapshots. -/
structure EntityState where
  fields : List (String × JsValue)
  history : List (List (String × JsValue))
deriving DecidableEq, Repr

/-- Modelled from the spec: the object-spread merge
`{...entityFields, ...partialUpdates}` used by `update` — existing keys
overridden in place, new keys appended. -/
def mergeFields (base updates : List (String × JsValue)) :
    List (String × JsValue) :=
  base.map (fun kv =>
    match lookupProp updates kv.1 with
    | some w => (kv.1, w)
    | none => kv)
  ++ updates.filter (fun kv => (lookupProp base kv.1).isNone)

/-- Modelled from the spec (section 4.2, `update`): merge the partial
updates over the current fields, reject any attempt to touch the identity
field, re-validate the merged result against the schema (failure leaves
the entity unmodified — all-or-nothing), and on success apply the new
fields in place, appending the pre-update snapshot when historizing.  The
returned state is the entity after the call, paired with the error raised,
if any. -/
def entityUpdate (sch : Schema) (identityField : String) (historize : Bool)
    (e : EntityState) (patch : List (String × JsValue)) :
    EntityState × Option JsError :=
  if (lookupProp patch identityField).isSome then
    (e, some (.configurationError "Cannot update identity field"))
  else
    let merged := mergeFields e.fields patch
    match sch.parse (.plainObj 0 merged []) with
    | .error err => (e, some (wrapZod "Entity" (.plainObj 0 merged []) err))
    | .ok (.obj validated) =>
        ({ fields := validated
           history := if historize then e.history ++ [e.fields] else e.history },
         none)
    | .ok (.prim _) => (e, some (.otherError 0))

/-- A model of `z.number().nonnegative()`-style schemas: the external Zod
collaborator, scoped by spec section 6 to `parse(input) -> validated value
| throws`.  Accepts a number primitive, rejects everything else with a
ZodError. -/
def numberSchema : Schema :=
  { kind := .number
    parse := fun e =>
      match e with
      | .prim (.num n) => .ok (.prim (.num n))
      | _ => .error (.zodError ["Expected number, received something else"]) }

/-- The sample `Number` primitive-wrapper factory (README quick example
style), with no custom methods. -/
def numberF : Factory :=
  { name := "Number"
    schema := numberSchema
    methodsFactory := .ok []
    overrideIsPrimitive := false
    isPrimitive := true }

/-- A model of the README's Money schema
`z.object({amount: nonnegative number, currency: 3-letter string})`:
accepts objects carrying a nonnegative `amount` number and a 3-letter
`currency` string, echoing the two fields in declaration order. -/
def moneySchema : Schema :=
  { kind := .other
    parse := fun e =>
      match e with
      | .plainObj _ fields _ =>
        match lookupProp fields "amount", lookupProp fields "currency" with
        | some (.prim (.num a)), some (.prim (.str c)) =>
          if 0 ≤ a ∧ c.length = 3 then
            .ok (.obj [("amount", .prim (.num a)), ("currency", .prim (.str c))])
          else
            .error (.zodError ["Number must be greater than or equal to 0"])
        | _, _ => .error (.zodError ["Required"])
      | _ => .error (.zodError ["Expected object, received something else"]) }

/-- The sample `Money` composite factory with one custom method, `add`. -/
def moneyF : Factory :=
  { name := "Money"
    schema := moneySchema
    methodsFactory := .ok ["add"]
    overrideIsPrimitive := false
    isPrimitive := false }

/-- Valid Money input data: `{amount: 99, currency: "USD"}`. -/
def moneyData99 : JsEntity :=
  .plainObj 100 [("amount", .prim (.num 99)), ("currency", .prim (.str "USD"))] []

/-- A second valid Money input differing in `amount`. -/
def moneyData107 : JsEntity :=
  .plainObj 101 [("amount", .prim (.num 107)), ("currency", .prim (.str "USD"))] []

/-- Invalid Money input data: a negative amount. -/
def moneyDataNeg : JsEntity :=
  .plainObj 102 [("amount", .prim (.num (-1))), ("currency", .prim (.str "USD"))] []

/-- The options IntegerNumber.js passes to `Number.extend` (lines 7-11):
a `methods` object instead of a `methodsFactory` function, so the
destructured `methodsFactory` is undefined — modelled as `none`. -/
def integerNumberOpts : ExtendOptions :=
  { name := "IntegerNumber"
    schemaTransformer := some (fun s => s)
    methodsFactory := none }

/-- Key uniqueness for a field list, as holds for the own properties of
any JavaScript object. -/
def keysNodup (fields : List (String × JsValue)) : Prop :=
  (fields.map Prod.fst).Nodup

/-- Key uniqueness for the own data fields of a value. -/
def entityKeysNodup (x : JsEntity) : Prop :=
  keysNodup (entityFields x)

/-- A well-behaved field set for a factory whose methods are `ms`: unique
keys, and no field name colliding with a standard or custom method name
(such a collision would let the method shadow the field in the merged
frozen object). -/
def fieldsOk (fields : List (String × JsValue)) (ms : List String) : Prop :=
  keysNodup fields ∧
  ∀ kv ∈ fields, ((stdMethodNames ++ ms).contains kv.1) = false

/-- Two own-property sets match exactly in names and `===`-equal values. -/
def propsMatch (a b : List (String × JsValue)) : Prop :=
  a.length = b.length ∧ ∀ kv ∈ a, lookupProp b kv.1 = some kv.2

instance (fields : List (String × JsValue)) : Decidable (keysNodup fields) :=
  inferInstanceAs (Decidable ((fields.map Prod.fst).Nodup))

instance : DecidablePred (entityKeysNodup ·) := fun x =>
  inferInstanceAs (Decidable ((entityFields x).map Prod.fst).Nodup)

instance (fields : List (String × JsValue)) (ms : List String) :
    Decidable (fieldsOk fields ms) :=
  inferInstanceAs (Decidable (keysNodup fields ∧
    ∀ kv ∈ fields, ((stdMethodNames ++ ms).contains kv.1) = false))

instance (a b : List (String × JsValue)) : Decidable (propsMatch a b) :=
  inferInstanceAs (Decidable (_ ∧ _))

theorem mem_of_lookupProp_eq_some {fields : List (String × JsValue)}
    {k : String} {val : JsValue} (h : lookupProp fields k = some val) :
    (k, val) ∈ fields := by
  induction fields with
  | nil => simp [lookupProp] at h
  | cons kv rest ih =>
    obtain ⟨k2, w⟩ := kv
    by_cases hk : k2 = k
    · subst hk
      simp [lookupProp] at h
      simp [h]
    · simp [lookupProp, hk] at h
      exact List.mem_cons_of_mem _ (ih h)

theorem lookupProp_eq_some_of_mem {fields : List (String × JsValue)}
    {k : String} {val : JsValue} (hnd : keysNodup fields)
    (hmem : (k, val) ∈ fields) : lookupProp fields k = some val := by
  induction fields with
  | nil => simp at hmem
  | cons kv rest ih =>
    obtain ⟨k2, w⟩ := kv
    rw [keysNodup, List.map_cons, List.nodup_cons] at hnd
    obtain ⟨hnotin, hndrest⟩ := hnd
    rcases List.mem_cons.mp hmem with h | h
    · rw [Prod.mk.injEq] at h
      obtain ⟨h1, h2⟩ := h
      subst h1
      subst h2
      simp [lookupProp]
    · have hk : ¬ k2 = k := by
        intro he
        subst he
        exact hnotin (List.mem_map.mpr ⟨(k2, val), h, rfl⟩)
      simp [lookupProp, hk]
      exact ih hndrest h

theorem keysNodup_filter {fields : List (String × JsValue)}
    (p : String × JsValue → Bool) (hnd : keysNodup fields) :
    keysNodup (fields.filter p) := by
  unfold keysNodup at *
  exact List.Nodup.sublist (List.Sublist.map _ (List.filter_sublist _)) hnd

/-- Reading an own property through the data-prop view: a key present
among the own non-function properties reads back as that data value. -/
theorem entityOwnProp_of_dataProps {x : JsEntity} {k : String} {val : JsValue}
    (hnd : entityKeysNodup x)
    (h : lookupProp (entityDataProps x) k = some val) :
    entityOwnProp x k = some (.val val) := by
  have hmem := mem_of_lookupProp_eq_some h
  rw [entityDataProps, List.mem_filter] at hmem
  obtain ⟨hmemf, hpf⟩ := hmem
  have hfn : (entityFnProps x).contains k = false := by
    simpa using hpf
  rw [entityOwnProp, hfn]
  simp
  exact lookupProp_eq_some_of_mem hnd hmemf

/-- Membership in an appended list is false exactly when it is false in
both halves. -/
theorem contains_append_false {l1 l2 : List String} {a : String} :
    ((l1 ++ l2).contains a = false) ↔
      (l1.contains a = false ∧ l2.contains a = false) := by
  simp

/-- Inversion of a successful `create`: the parse and methods-factory
results, and the shape of the returned frozen instance. -/
theorem create_ok_inv {f : Factory} {d : JsEntity} {oid protoOid dataOid : Nat}
    {v : VOInstance} (h : create f d oid protoOid dataOid = .ok v) :
    f.schema.parse d = .ok v.validatedData ∧
    f.methodsFactory = .ok v.customMethods ∧
    v.oid = oid ∧ v.protoOid = protoOid ∧ v.dataOid = dataOid ∧
    v.isPrimitive = f.isPrimitive ∧ v.frozen = true := by
  unfold create at h
  cases hp : f.schema.parse d with
  | error e => rw [hp] at h; cases h
  | ok vd =>
    rw [hp] at h
    cases hm : f.methodsFactory with
    | error e => rw [hm] at h; cases h
    | ok ms =>
      rw [hm] at h
      cases h
      simp_all

/-- When the validated data is an object whose field names avoid every
method name, the frozen instance's own data props are exactly those
fields. -/
theorem inst_dataProps_eq {v : VOInstance} {fs : List (String × JsValue)}
    {ms : List String} (hvd : v.validatedData = .obj fs)
    (hcm : v.customMethods = ms) (hok : fieldsOk fs ms) :
    entityDataProps (.inst v) = fs := by
  have hfields : entityFields (.inst v) = fs := by simp [entityFields, hvd]
  have hfn : entityFnProps (.inst v) = stdMethodNames ++ ms := by
    simp [entityFnProps, hcm]
  rw [entityDataProps, hfields, hfn]
  apply List.filter_eq_self.mpr
  intro kv hkv
  rw [hok.2 kv hkv]
  rfl

/-- When the validated data is an object whose field names avoid the three
standard method names, the prototype's own data props are exactly those
fields. -/
theorem proto_dataProps_eq {v : VOInstance} {fs : List (String × JsValue)}
    (hvd : v.validatedData = .obj fs)
    (hstd : ∀ kv ∈ fs, (stdMethodNames.contains kv.1) = false) :
    entityDataProps v.proto = fs := by
  have hproto : v.proto = .plainObj v.protoOid fs stdMethodNames := by
    simp [VOInstance.proto, hvd]
  rw [hproto, entityDataProps, entityFields, entityFnProps]
  apply List.filter_eq_self.mpr
  intro kv hkv
  rw [hstd kv hkv]
  rfl

/-- The prototype's data-field keys are unique whenever the validated
object's keys are. -/
theorem proto_keysNodup {v : VOInstance} {fs : List (String × JsValue)}
    (hvd : v.validatedData = .obj fs) (hnd : keysNodup fs) :
    entityKeysNodup v.proto := by
  have hproto : v.proto = .plainObj v.protoOid fs stdMethodNames := by
    simp [VOInstance.proto, hvd]
  rw [entityKeysNodup, hproto, entityFields]
  exact hnd

/-- `equals` on a value reference-identical to the prototype is true
(part_000 line 104, with `this` the prototype). -/
theorem equals_some_of_ref {v : VOInstance} {o : JsEntity}
    (hse : strictEqEntity v.proto o = true) :
    v.equals (some o) = true := by
  simp [VOInstance.equals, hse]

/-- The shape `equals` takes on the primitive-wrapper path. -/
theorem equals_some_primitive {v : VOInstance} {o : JsEntity}
    (hse : strictEqEntity v.proto o = false)
    (hip : v.isPrimitive = true) :
    v.equals (some o) = strictEqEntity v.valueOf (entityValueOf o) := by
  simp [VOInstance.equals, hse, hip]

/-- The shape `equals` takes on the composite path: the this-side property
set is the prototype's. -/
theorem equals_some_composite {v : VOInstance} {o : JsEntity}
    (hse : strictEqEntity v.proto o = false)
    (hipf : v.isPrimitive = false) :
    v.equals (some o) =
      ((entityDataProps v.proto).length == (entityDataProps o).length &&
       (entityDataProps v.proto).all (equalsPropCheck o)) := by
  simp [VOInstance.equals, hse, hipf]

/-- The standard `equals` returns true through the primitive-wrapper path
when the two `valueOf` results are `===`-equal. -/
theorem equals_true_of_primitive {v : VOInstance} {o : JsEntity}
    (hip : v.isPrimitive = true)
    (hveq : strictEqEntity v.valueOf (entityValueOf o) = true) :
    v.equals (some o) = true := by
  cases hse : strictEqEntity v.proto o with
  | true => exact equals_some_of_ref hse
  | false => rw [equals_some_primitive hse hip, hveq]

/-- The standard `equals` returns true through the composite path when the
prototype's own non-function properties match the other value's exactly. -/
theorem equals_true_of_propsMatch {v : VOInstance} {x : JsEntity}
    (hipf : v.isPrimitive = false)
    (hxn : entityKeysNodup x)
    (hm : propsMatch (entityDataProps v.proto) (entityDataProps x)) :
    v.equals (some x) = true := by
  cases hse : strictEqEntity v.proto x with
  | true => exact equals_some_of_ref hse
  | false =>
    rw [equals_some_composite hse hipf, Bool.and_eq_true]
    constructor
    · rw [hm.1]
      exact beq_self_eq_true _
    · rw [List.all_eq_true]
      intro kv hkv
      rw [equalsPropCheck, entityOwnProp_of_dataProps hxn (hm.2 kv hkv)]
      exact beq_self_eq_true _

/-- The standard `equals` returns false through the composite path when
some own data property of the prototype reads back from `other` with a
different value. -/
theorem equals_false_of_diff {v : VOInstance} {x : JsEntity} {k : String}
    {w1 w2 : JsValue}
    (hipf : v.isPrimitive = false)
    (href : strictEqEntity v.proto x = false)
    (hmem : (k, w1) ∈ entityDataProps v.proto)
    (hprop : entityOwnProp x k = some (.val w2))
    (hne : w1 ≠ w2) :
    v.equals (some x) = false := by
  rw [equals_some_composite href hipf]
  cases hall : (entityDataProps v.proto).all (equalsPropCheck x) with
  | false => rw [Bool.and_false]
  | true =>
    exfalso
    have hone := List.all_eq_true.mp hall (k, w1) hmem
    rw [equalsPropCheck, hprop] at hone
    simp at hone
    exact hne hone

/-- The validated Money fields for `{amount: 99, currency: "USD"}`. -/
def moneyFields99 : List (String × JsValue) :=
  [("amount", .prim (.num 99)), ("currency", .prim (.str "USD"))]

/-- The validated Money fields for `{amount: 107, currency: "USD"}`. -/
def moneyFields107 : List (String × JsValue) :=
  [("amount", .prim (.num 107)), ("currency", .prim (.str "USD"))]

/-- The instance `Money.create({amount:99, currency:"USD"})` with fresh
oids 0 (frozen instance), 1 (prototype) and 2 (validated data). -/
def moneyInst99 : VOInstance :=
  { oid := 0, protoOid := 1, dataOid := 2, isPrimitive := false
    frozen := true, validatedData := .obj moneyFields99
    customMethods := ["add"] }

/-- A second, reference-distinct instance created from the same data. -/
def moneyInst99b : VOInstance :=
  { oid := 3, protoOid := 4, dataOid := 5, isPrimitive := false
    frozen := true, validatedData := .obj moneyFields99
    customMethods := ["add"] }

/-- The instance `Money.create({amount:107, currency:"USD"})`. -/
def moneyInst107 : VOInstance :=
  { oid := 3, protoOid := 4, dataOid := 5, isPrimitive := false
    frozen := true, validatedData := .obj moneyFields107
    customMethods := ["add"] }

/-- The instance `Number.create(5)`. -/
def numberInst5 : VOInstance :=
  { oid := 0, protoOid := 1, dataOid := 2, isPrimitive := true
    frozen := true, validatedData := .prim (.num 5), customMethods := [] }

/-- A second, reference-distinct instance `Number.create(5)`. -/
def numberInst5c : VOInstance :=
  { oid := 3, protoOid := 4, dataOid := 5, isPrimitive := true
    frozen := true, validatedData := .prim (.num 5), customMethods := [] }

/-- The instance `Number.create(7)` with fresh oids. -/
def numberInst7 : VOInstance :=
  { oid := 3, protoOid := 4, dataOid := 5, isPrimitive := true
    frozen := true, validatedData := .prim (.num 7), customMethods := [] }

/-- Claim C1 (value equality), for factories whose custom methods do not
shadow the standard ones, in both classifications the claim's source
covers: for composite factories, creating twice from the same accepted
data yields `equals`-true instances, and creating from two accepted data
objects that differ in the value of at least one field yields
`equals`-false instances; for primitive-wrapper factories, the same with
the parsed primitive in place of the fields.  `fieldsOk` states the
well-formedness JavaScript guarantees for parsed objects (unique keys)
plus the absence of field/method name collisions; the freshness hypothesis
`p1 ≠ o2` records that the first instance's prototype and the second
instance are distinct objects, as fresh allocations are. -/
theorem value_equality (f : Factory) (ms : List String)
    (hms : f.methodsFactory = .ok ms)
    (hne : ms.contains "equals" = false) :
    (∀ d fs o1 p1 od1 o2 p2 od2 v1 v2,
       f.isPrimitive = false →
       f.schema.parse d = .ok (.obj fs) →
       fieldsOk fs ms →
       create f d o1 p1 od1 = .ok v1 →
       create f d o2 p2 od2 = .ok v2 →
       v1.equals (some (.inst v2)) = true) ∧
    (∀ d1 d2 fs1 fs2 o1 p1 od1 o2 p2 od2 v1 v2 k w1 w2,
       f.isPrimitive = false →
       f.schema.parse d1 = .ok (.obj fs1) →
       f.schema.parse d2 = .ok (.obj fs2) →
       fieldsOk fs1 ms → fieldsOk fs2 ms →
       fs1.length = fs2.length →
       lookupProp fs1 k = some w1 →
       lookupProp fs2 k = some w2 →
       w1 ≠ w2 →
       p1 ≠ o2 →
       create f d1 o1 p1 od1 = .ok v1 →
       create f d2 o2 p2 od2 = .ok v2 →
       v1.equals (some (.inst v2)) = false) ∧
    (∀ d q o1 p1 od1 o2 p2 od2 v1 v2,
       f.isPrimitive = true →
       f.schema.parse d = .ok (.prim q) →
       create f d o1 p1 od1 = .ok v1 →
       create f d o2 p2 od2 = .ok v2 →
       v1.equals (some (.inst v2)) = true) ∧
    (∀ d1 d2 q1 q2 o1 p1 od1 o2 p2 od2 v1 v2,
       f.isPrimitive = true →
       f.schema.parse d1 = .ok (.prim q1) →
       f.schema.parse d2 = .ok (.prim q2) →
       q1 ≠ q2 →
       p1 ≠ o2 →
       create f d1 o1 p1 od1 = .ok v1 →
       create f d2 o2 p2 od2 = .ok v2 →
       v1.equals (some (.inst v2)) = false) := by
  refine ⟨?_, ?_, ?_, ?_⟩
  · intro d fs o1 p1 od1 o2 p2 od2 v1 v2 hprim hp hok hc1 hc2
    obtain ⟨hp1, hm1, _, _, _, hip1, _⟩ := create_ok_inv hc1
    obtain ⟨hp2, hm2, _, _, _, hip2, _⟩ := create_ok_inv hc2
    have hvd1 : v1.validatedData = .obj fs := by
      rw [hp] at hp1; exact (Except.ok.injEq .. ▸ hp1).symm
    have hvd2 : v2.validatedData = .obj fs := by
      rw [hp] at hp2; exact (Except.ok.injEq .. ▸ hp2).symm
    have hcm2 : v2.customMethods = ms := by
      rw [hms] at hm2; exact (Except.ok.injEq .. ▸ hm2).symm
    have hstd : ∀ kv ∈ fs, (stdMethodNames.contains kv.1) = false :=
      fun kv hkv => (contains_append_false.mp (hok.2 kv hkv)).1
    have hd1 : entityDataProps v1.proto = fs := proto_dataProps_eq hvd1 hstd
    have hd2 : entityDataProps (.inst v2) = fs := inst_dataProps_eq hvd2 hcm2 hok
    apply equals_true_of_propsMatch (hip1.trans hprim)
    · rw [entityKeysNodup, entityFields, hvd2]
      exact hok.1
    · rw [hd1, hd2]
      exact ⟨rfl, fun kv hkv => lookupProp_eq_some_of_mem hok.1 hkv⟩
  · intro d1 d2 fs1 fs2 o1 p1 od1 o2 p2 od2 v1 v2 k w1 w2 hprim hpa hpb hok1
      hok2 hlen hl1 hl2 hwne hone hc1 hc2
    obtain ⟨hp1, hm1, _, hpro1, _, hip1, _⟩ := create_ok_inv hc1
    obtain ⟨hp2, hm2, hoid2, _, _, hip2, _⟩ := create_ok_inv hc2
    have hvd1 : v1.validatedData = .obj fs1 := by
      rw [hpa] at hp1; exact (Except.ok.injEq .. ▸ hp1).symm
    have hvd2 : v2.validatedData = .obj fs2 := by
      rw [hpb] at hp2; exact (Except.ok.injEq .. ▸ hp2).symm
    have hcm2 : v2.customMethods = ms := by
      rw [hms] at hm2; exact (Except.ok.injEq .. ▸ hm2).symm
    have hstd1 : ∀ kv ∈ fs1, (stdMethodNames.contains kv.1) = false :=
      fun kv hkv => (contains_append_false.mp (hok1.2 kv hkv)).1
    have hd1 : entityDataProps v1.proto = fs1 := proto_dataProps_eq hvd1 hstd1
    have hd2 : entityDataProps (.inst v2) = fs2 := inst_dataProps_eq hvd2 hcm2 hok2
    have hproto1 : v1.proto = .plainObj v1.protoOid fs1 stdMethodNames := by
      simp [VOInstance.proto, hvd1]
    have href : strictEqEntity v1.proto (.inst v2) = false := by
      rw [hproto1]
      simp only [strictEqEntity, entityOid]
      rw [hpro1, hoid2]
      exact beq_eq_false_iff_ne.mpr hone
    have hmem : (k, w1) ∈ entityDataProps v1.proto := by
      rw [hd1]
      exact mem_of_lookupProp_eq_some hl1
    have hprop : entityOwnProp (.inst v2) k = some (.val w2) := by
      apply entityOwnProp_of_dataProps
      · rw [entityKeysNodup, entityFields, hvd2]
        exact hok2.1
      · rw [hd2]
        exact hl2
    exact equals_false_of_diff (hip1.trans hprim) href hmem hprop hwne
  · intro d q o1 p1 od1 o2 p2 od2 v1 v2 hprim hp hc1 hc2
    obtain ⟨hp1, _, _, _, _, hip1, _⟩ := create_ok_inv hc1
    obtain ⟨hp2, _, _, _, _, hip2, _⟩ := create_ok_inv hc2
    have hvd1 : v1.validatedData = .prim q := by
      rw [hp] at hp1; exact (Except.ok.injEq .. ▸ hp1).symm
    have hvd2 : v2.validatedData = .prim q := by
      rw [hp] at hp2; exact (Except.ok.injEq .. ▸ hp2).symm
    have hip1t : v1.isPrimitive = true := hip1.trans hprim
    have hvo1 : v1.valueOf = .prim q := by
      rw [VOInstance.valueOf, if_pos hip1t, hvd1]
      rfl
    have hvo2 : v2.valueOf = .prim q := by
      rw [VOInstance.valueOf, if_pos (hip2.trans hprim), hvd2]
      rfl
    have h2 : entityValueOf (.inst v2) = .prim q := hvo2
    apply equals_true_of_primitive hip1t
    rw [hvo1, h2]
    simp [strictEqEntity]
  · intro d1 d2 q1 q2 o1 p1 od1 o2 p2 od2 v1 v2 hprim hpa hpb hq hone hc1 hc2
    obtain ⟨hp1, _, _, hpro1, _, hip1, _⟩ := create_ok_inv hc1
    obtain ⟨hp2, _, hoid2, _, _, hip2, _⟩ := create_ok_inv hc2
    have hvd1 : v1.validatedData = .prim q1 := by
      rw [hpa] at hp1; exact (Except.ok.injEq .. ▸ hp1).symm
    have hvd2 : v2.validatedData = .prim q2 := by
      rw [hpb] at hp2; exact (Except.ok.injEq .. ▸ hp2).symm
    have hip1t : v1.isPrimitive = true := hip1.trans hprim
    have hvo1 : v1.valueOf = .prim q1 := by
      rw [VOInstance.valueOf, if_pos hip1t, hvd1]
      rfl
    have hvo2 : v2.valueOf = .prim q2 := by
      rw [VOInstance.valueOf, if_pos (hip2.trans hprim), hvd2]
      rfl
    have h2 : entityValueOf (.inst v2) = .prim q2 := hvo2
    have hproto1 : v1.proto = .plainObj v1.protoOid [] stdMethodNames := by
      simp [VOInstance.proto, hvd1]
    have href : strictEqEntity v1.proto (.inst v2) = false := by
      rw [hproto1]
      simp only [strictEqEntity, entityOid]
      rw [hpro1, hoid2]
      exact beq_eq_false_iff_ne.mpr hone
    rw [equals_some_primitive href hip1t, hvo1, h2]
    simp only [strictEqEntity]
    exact beq_eq_false_iff_ne.mpr hq

/-- Witness for C1: the Money factory from the README example and the
primitive Number factory.  Two instances of `{amount:99, currency:"USD"}`
are equal while `{amount:99}` and `{amount:107}` instances are not; two
instances of `Number.create(5)` are equal while `Number.create(5)` and
`Number.create(7)` are not. -/
theorem value_equality_witness :
    moneyInst99.equals (some (.inst moneyInst99b)) = true ∧
    moneyInst99.equals (some (.inst moneyInst107)) = false ∧
    numberInst5.equals (some (.inst numberInst5c)) = true ∧
    numberInst5.equals (some (.inst numberInst7)) = false :=
  ⟨(value_equality moneyF ["add"] rfl (by decide)).1 moneyData99 moneyFields99
      0 1 2 3 4 5 moneyInst99 moneyInst99b rfl rfl (by decide) rfl rfl,
   (value_equality moneyF ["add"] rfl (by decide)).2.1 moneyData99 moneyData107
      moneyFields99 moneyFields107 0 1 2 3 4 5 moneyInst99 moneyInst107
      "amount" (.prim (.num 99)) (.prim (.num 107)) rfl rfl rfl (by decide)
      (by decide) rfl rfl rfl (by decide) (by decide) rfl rfl,
   (value_equality numberF [] rfl rfl).2.2.1 (.prim (.num 5)) (.num 5)
      0 1 2 3 4 5 numberInst5 numberInst5c rfl rfl rfl rfl,
   (value_equality numberF [] rfl rfl).2.2.2 (.prim (.num 5)) (.prim (.num 7))
      (.num 5) (.num 7) 0 1 2 3 4 5 numberInst5 numberInst7 rfl rfl rfl
      (by decide) (by decide) rfl rfl⟩

/-- Claim C2 (immutability): every object returned by `create` is frozen
(part_000 line 166), so a property write is a no-op and every field keeps
its creation-time value. -/
theorem immutability_frozen (f : Factory) (d : JsEntity)
    (oid protoOid dataOid : Nat) (v : VOInstance)
    (hv : create f d oid protoOid dataOid = .ok v) :
    v.frozen = true ∧ ∀ k val, setField v k val = v := by
  have hfr := (create_ok_inv hv).2.2.2.2.2.2
  exact ⟨hfr, fun k val => by rw [setField, hfr]; rfl⟩

/-- Witness for C2: writing `amount` on a created Money instance is a
no-op. -/
theorem immutability_frozen_witness :
    moneyInst99.frozen = true ∧
    setField moneyInst99 "amount" (.prim (.num 0)) = moneyInst99 :=
  ⟨(immutability_frozen moneyF moneyData99 0 1 2 moneyInst99 rfl).1,
   (immutability_frozen moneyF moneyData99 0 1 2 moneyInst99 rfl).2 "amount"
     (.prim (.num 0))⟩

/-- Claim C3 (validation failure wrapping): when the schema's parse throws
a ZodError, `create` raises a ValidationError carrying the aggregated
field messages, the type name and the offending input (part_000 lines
173-180), and never a raw validation-engine error. -/
theorem validation_wrapping (f : Factory) (d : JsEntity)
    (oid protoOid dataOid : Nat) (issues : List String)
    (h : f.schema.parse d = .error (.zodError issues)) :
    create f d oid protoOid dataOid =
      .error (.validationError
        ("Invalid " ++ f.name ++ ": " ++ String.intercalate ", " issues)
        issues f.name d) ∧
    ∀ rawIssues, create f d oid protoOid dataOid ≠ .error (.zodError rawIssues) := by
  have h1 : create f d oid protoOid dataOid =
      .error (wrapZod f.name d (.zodError issues)) := by
    unfold create
    rw [h]
  rw [wrapZod] at h1
  refine ⟨h1, ?_⟩
  intro rawIssues hcontra
  rw [h1] at hcontra
  simp at hcontra

/-- Witness for C3: `Money.create({amount:-1, currency:"USD"})` fails with
the wrapped ValidationError, matching the spec scenario. -/
theorem validation_wrapping_witness :
    create moneyF moneyDataNeg 0 1 2 =
      .error (.validationError
        "Invalid Money: Number must be greater than or equal to 0"
        ["Number must be greater than or equal to 0"] "Money" moneyDataNeg) :=
  (validation_wrapping moneyF moneyDataNeg 0 1 2
    ["Number must be greater than or equal to 0"] rfl).1

/-- Counterexample to claim C4 as stated: the claim's third branch says
`valueOf` otherwise returns the instance itself, the same object the
caller holds.  But the method is bound to the prototype (part_000 line
168), so `return this` (line 89) yields the prototype — a
reference-distinct object.  For the concrete Money instance the caller
holds, the `valueOf` result is not `===` to it. -/
theorem valueOf_self_counterexample :
    create moneyF moneyData99 0 1 2 = .ok moneyInst99 ∧
    strictEqEntity moneyInst99.valueOf (.inst moneyInst99) = false := by
  exact ⟨rfl, by decide⟩

/-- Claim C4 as amended (valueOf semantics, part_000 lines 77-90): on a
created instance, `valueOf` returns the unwrapped primitive when the
factory is classified primitive-wrapper; the single field's value when
composite with exactly one field whose value is not object-typed; and
otherwise the prototype object the method is bound to — an object carrying
the same validated fields but reference-distinct from the frozen instance
the caller holds. -/
theorem valueOf_semantics (f : Factory) (d : JsEntity)
    (oid protoOid dataOid : Nat) (v : VOInstance)
    (hv : create f d oid protoOid dataOid = .ok v) :
    (∀ p, f.isPrimitive = true → v.validatedData = .prim p →
       v.valueOf = .prim p) ∧
    (∀ k p, f.isPrimitive = false → v.validatedData = .obj [(k, .prim p)] →
       v.valueOf = .prim p) ∧
    (∀ fs, f.isPrimitive = false → v.validatedData = .obj fs →
       (∀ k p, fs ≠ [(k, .prim p)]) →
       v.valueOf = v.proto ∧
       (v.protoOid ≠ v.oid →
         strictEqEntity v.valueOf (.inst v) = false)) := by
  have hip := (create_ok_inv hv).2.2.2.2.2.1
  refine ⟨?_, ?_, ?_⟩
  · intro p h1 h2
    rw [VOInstance.valueOf, if_pos (hip.trans h1), h2]
    rfl
  · intro k p h1 h2
    have hipf : v.isPrimitive = false := hip.trans h1
    rw [VOInstance.valueOf, if_neg (by simp [hipf]), h2]
  · intro fs h1 h2 h3
    have hipf : v.isPrimitive = false := hip.trans h1
    have hq : v.valueOf = v.proto := by
      rw [VOInstance.valueOf, if_neg (by simp [hipf]), h2]
      rcases fs with _ | ⟨⟨k, w⟩, rest⟩
      · rfl
      · rcases rest with _ | ⟨kv2, rest2⟩
        · rcases w with p | r
          · exact absurd rfl (h3 k p)
          · rfl
        · rcases w with p | r
          · rfl
          · rfl
    refine ⟨hq, fun hfresh => ?_⟩
    have hproto : v.proto = .plainObj v.protoOid fs stdMethodNames := by
      simp [VOInstance.proto, h2]
    rw [hq, hproto]
    simp only [strictEqEntity, entityOid]
    exact beq_eq_false_iff_ne.mpr hfresh

/-- Witness for the amended C4: the Money instance is composite with two
fields, so `valueOf` returns its prototype, which is not `===` the frozen
instance; the Number instance is a primitive wrapper, so `valueOf` returns
the unwrapped number. -/
theorem valueOf_semantics_witness :
    moneyInst99.valueOf = moneyInst99.proto ∧
    strictEqEntity moneyInst99.valueOf (.inst moneyInst99) = false ∧
    numberInst5.valueOf = .prim (.num 5) :=
  ⟨((valueOf_semantics moneyF moneyData99 0 1 2 moneyInst99 rfl).2.2
      moneyFields99 rfl rfl (by intro k p h; simp [moneyFields99] at h)).1,
   ((valueOf_semantics moneyF moneyData99 0 1 2 moneyInst99 rfl).2.2
      moneyFields99 rfl rfl (by intro k p h; simp [moneyFields99] at h)).2
      (by decide),
   (valueOf_semantics numberF (.prim (.num 5)) 0 1 2 numberInst5 rfl).1
      (.num 5) rfl rfl⟩

/-- Claim C5 (round-trip via valueOf): for a primitive-wrapper instance
`v`, `create(v.valueOf())` succeeds and the result `equals v`, provided
the schema re-accepts the primitive it produced (the parse idempotence the
external engine contract provides) and the custom methods do not shadow
the standard ones. -/
theorem roundtrip_valueOf (f : Factory) (d : JsEntity)
    (o1 p1 od1 o2 p2 od2 : Nat)
    (v : VOInstance) (p : Prim) (ms : List String)
    (hv : create f d o1 p1 od1 = .ok v)
    (hprim : f.isPrimitive = true)
    (hdata : v.validatedData = .prim p)
    (hre : f.schema.parse (.prim p) = .ok (.prim p))
    (hms : f.methodsFactory = .ok ms)
    (hnv : ms.contains "valueOf" = false)
    (hne : ms.contains "equals" = false) :
    ∃ w, create f v.valueOf o2 p2 od2 = .ok w ∧
         w.equals (some (.inst v)) = true := by
  obtain ⟨hp, hm, _, _, _, hip, _⟩ := create_ok_inv hv
  have hipv : v.isPrimitive = true := hip.trans hprim
  have hvo : v.valueOf = .prim p := by
    rw [VOInstance.valueOf, if_pos hipv, hdata]
    rfl
  refine ⟨{ oid := o2, protoOid := p2, dataOid := od2
            isPrimitive := f.isPrimitive, frozen := true
            validatedData := .prim p, customMethods := ms }, ?_, ?_⟩
  · rw [hvo]
    unfold create
    rw [hre, hms]
  · apply equals_true_of_primitive
    · exact hprim
    · have hwv : VOInstance.valueOf
          { oid := o2, protoOid := p2, dataOid := od2
            isPrimitive := f.isPrimitive, frozen := true
            validatedData := .prim p, customMethods := ms } =
          .prim p := by
        rw [VOInstance.valueOf, if_pos hprim]
        rfl
      have h2 : entityValueOf (.inst v) = .prim p := hvo
      rw [hwv, h2]
      simp [strictEqEntity]

/-- Witness for C5: `Number.create(5)` round-trips through `valueOf`. -/
theorem roundtrip_valueOf_witness :
    ∃ w, create numberF numberInst5.valueOf 3 4 5 = .ok w ∧
         w.equals (some (.inst numberInst5)) = true :=
  roundtrip_valueOf numberF (.prim (.num 5)) 0 1 2 3 4 5 numberInst5 (.num 5)
    [] rfl rfl rfl rfl rfl rfl rfl

/-- Claim C6 (extension configuration errors, part_000 lines 199-205):
`extend` raises a configuration error and produces no factory when the new
name is empty, or when the supplied `methodsFactory` is not callable —
including when a `methods` object is passed instead of a `methodsFactory`
function, as IntegerNumber.js does, so the destructured `methodsFactory`
is undefined. -/
theorem extend_config_errors (parent : Factory) (opts : ExtendOptions) :
    (opts.name = "" →
       extend parent opts =
         .error (.configurationError "Extended value object name is required")) ∧
    (opts.name ≠ "" → opts.methodsFactory = none →
       extend parent opts =
         .error (.configurationError "Method factory is required for extension")) := by
  constructor
  · intro h
    unfold extend
    rw [if_pos h]
  · intro h1 h2
    unfold extend
    rw [if_neg h1, h2]

/-- Witness for C6: the exact options IntegerNumber.js passes to
`Number.extend` (a `methods` object, no `methodsFactory`) produce the
configuration error. -/
theorem extend_config_errors_witness :
    extend numberF integerNumberOpts =
      .error (.configurationError "Method factory is required for extension") :=
  (extend_config_errors numberF integerNumberOpts).2 (by decide) rfl

/-- Counterexample to claim C7 as stated: for the raw primitive `5` and
the Number factory, `factory.create(v.valueOf())` succeeds and the
re-created object `equals(5)` is true, yet the schema rejects `5`, because
`valueObjectSchema` first requires the value to be an object exposing an
`equals` function (schema.js line 17).  So acceptance is not equivalent to
round-trip-and-compare alone. -/
theorem specific_schema_counterexample :
    ¬ (specificAccepts numberF 3 4 5 (some (.prim (.num 5))) = true ↔
       (∃ w, create numberF (entityValueOf (.prim (.num 5))) 3 4 5 = .ok w ∧
             w.equals (some (.prim (.num 5))) = true)) := by
  intro h
  exact absurd (h.mpr ⟨numberInst5c, rfl, rfl⟩) (by decide)

/-- Claim C7 as amended (behavioral membership of
`specificValueObjectSchema`): the schema accepts a value `v` iff `v` is an
object exposing a callable `equals` (the duck-typed value-object check)
and `factory.create(v.valueOf())` succeeds with a result that `equals v`;
and no nominal type tag is consulted — renaming the factory never changes
acceptance, and instances carry no type marker the check could read. -/
theorem specific_schema_membership (f : Factory) (oid protoOid dataOid : Nat)
    (v : JsEntity) :
    (specificAccepts f oid protoOid dataOid (some v) = true ↔
       (isValueObjectCheck (some v) = true ∧
        ∃ w, create f (entityValueOf v) oid protoOid dataOid = .ok w ∧
             w.equals (some v) = true)) ∧
    (∀ n, specificAccepts { f with name := n } oid protoOid dataOid (some v) =
          specificAccepts f oid protoOid dataOid (some v)) := by
  have htc : ∀ g : Factory, (specificTypeCheck g oid protoOid dataOid v = true) ↔
      (∃ w, create g (entityValueOf v) oid protoOid dataOid = .ok w ∧
            w.equals (some v) = true) := by
    intro g
    cases hc : create g (entityValueOf v) oid protoOid dataOid with
    | ok w => simp [specificTypeCheck, hc]
    | error e => simp [specificTypeCheck, hc]
  constructor
  · rw [specificAccepts, valueObjectAccepts, Bool.and_eq_true]
    exact and_congr_right fun _ => htc f
  · intro n
    rw [specificAccepts, specificAccepts, valueObjectAccepts, valueObjectAccepts]
    have hsame : specificTypeCheck { f with name := n } oid protoOid dataOid v =
        specificTypeCheck f oid protoOid dataOid v := by
      rw [specificTypeCheck, specificTypeCheck, create, create]
      cases hp : f.schema.parse (entityValueOf v) with
      | error e => rfl
      | ok vd =>
        cases hm : f.methodsFactory with
        | error e => rfl
        | ok ms => rfl
    rw [hsame]

/-- Witness for the amended C7: a genuine Number instance is accepted —
it passes the duck-typed check and round-trips through
`create(v.valueOf())` into an equal instance. -/
theorem specific_schema_membership_witness :
    specificAccepts numberF 3 4 5 (some (.inst numberInst5)) = true :=
  ((specific_schema_membership numberF 3 4 5 (.inst numberInst5)).1).mpr
    ⟨rfl, numberInst5c, rfl, rfl⟩

/-- Claim C8 (entity update atomicity).  The entity implementation is not
under src/; `entityUpdate` is modelled from spec section 4.2.  When the
merged result fails schema validation, the entity after the call is
field-for-field the entity before the call — update is all-or-nothing. -/
theorem update_atomicity (sch : Schema) (identityField : String)
    (historize : Bool) (e : EntityState) (patch : List (String × JsValue))
    (err : JsError)
    (h : sch.parse (.plainObj 0 (mergeFields e.fields patch) []) = .error err) :
    (entityUpdate sch identityField historize e patch).1 = e := by
  unfold entityUpdate
  by_cases hid : (lookupProp patch identityField).isSome
  · rw [if_pos hid]
  · rw [if_neg hid]
    simp [h]

/-- Witness for C8: patching an entity with data the schema rejects leaves
its fields untouched. -/
theorem update_atomicity_witness :
    (entityUpdate numberSchema "id" true
       { fields := [("id", .prim (.num 1))], history := [] }
       [("x", .prim (.num 2))]).1 =
      { fields := [("id", .prim (.num 1))], history := [] } :=
  update_atomicity numberSchema "id" true
    { fields := [("id", .prim (.num 1))], history := [] }
    [("x", .prim (.num 2))]
    (.zodError ["Expected number, received something else"]) rfl

/-- Claim C9 (implicit): `create` re-invokes the methods factory on every
call (the invocation sits inside `create`'s body, part_000 line 157), and
an exception it raises that is not a ZodError propagates to the caller
unwrapped — the propagated error is neither a ValidationError nor a
ConfigurationError, a third error kind surfacing from `create`. -/
theorem methods_error_propagation (f : Factory) (d : JsEntity)
    (oid protoOid dataOid : Nat) (vd : JsData) (t : Nat)
    (hp : f.schema.parse d = .ok vd)
    (hm : f.methodsFactory = .error (.otherError t)) :
    create f d oid protoOid dataOid = .error (.otherError t) ∧
    (∀ m issues o i, (JsError.otherError t) ≠ .validationError m issues o i) ∧
    (∀ m, (JsError.otherError t) ≠ .configurationError m) := by
  refine ⟨?_, fun m issues o i h => JsError.noConfusion h,
    fun m h => JsError.noConfusion h⟩
  unfold create
  rw [hp, hm]
  rfl

/-- A factory whose methods factory throws a non-Zod exception. -/
def throwingF : Factory :=
  { name := "Throwing"
    schema := numberSchema
    methodsFactory := .error (.otherError 7)
    overrideIsPrimitive := false
    isPrimitive := true }

/-- Witness for C9: the methods-factory exception reaches the caller of
`create` unwrapped. -/
theorem methods_error_propagation_witness :
    create throwingF (.prim (.num 5)) 0 1 2 = .error (.otherError 7) :=
  (methods_error_propagation throwingF (.prim (.num 5)) 0 1 2
    (.prim (.num 5)) 7 rfl rfl).1

/-- A model Zod object schema `z.object({add: z.number(), amount:
z.number()})`, whose `add` field name collides with a custom method
name. -/
def addSchema : Schema :=
  { kind := .other
    parse := fun e =>
      match e with
      | .plainObj _ fields _ =>
        match lookupProp fields "add", lookupProp fields "amount" with
        | some (.prim (.num a)), some (.prim (.num b)) =>
            .ok (.obj [("add", .prim (.num a)), ("amount", .prim (.num b))])
        | _, _ => .error (.zodError ["Required"])
      | _ => .error (.zodError ["Expected object, received something else"]) }

/-- A composite factory whose custom method `add` collides with the
schema field `add`. -/
def addClashF : Factory :=
  { name := "AddClash"
    schema := addSchema
    methodsFactory := .ok ["add"]
    overrideIsPrimitive := false
    isPrimitive := false }

/-- Input data `{add: 1, amount: 2}` for the colliding factory. -/
def addClashData : JsEntity :=
  .plainObj 100 [("add", .prim (.num 1)), ("amount", .prim (.num 2))] []

/-- The instance `AddClash.create({add:1, amount:2})`: on the frozen
object the bound method `add` shadows the data field `add`, so the
caller-visible own data properties are just `{amount: 2}`. -/
def addClashInst : VOInstance :=
  { oid := 0, protoOid := 1, dataOid := 2, isPrimitive := false
    frozen := true
    validatedData := .obj [("add", .prim (.num 1)), ("amount", .prim (.num 2))]
    customMethods := ["add"] }

/-- Counterexample to claim C10 as stated: the claim matches `x` against
the instance's own non-function properties, but `equals` runs with `this`
bound to the prototype (part_000 line 169), which keeps a data field named
like a custom method.  For `AddClash.create({add:1, amount:2})`, the
instance's own data properties are exactly `{amount:2}` (the bound method
shadows `add`); the plain object `{amount:2}` matches them, yet `equals`
compares the prototype's two data properties against it and returns
false. -/
theorem structural_equality_counterexample :
    create addClashF addClashData 0 1 2 = .ok addClashInst ∧
    propsMatch (entityDataProps (.inst addClashInst))
      (entityDataProps (.plainObj 50 [("amount", .prim (.num 2))] [])) ∧
    addClashInst.equals
      (some (.plainObj 50 [("amount", .prim (.num 2))] [])) = false := by
  exact ⟨rfl, by decide, by decide⟩

/-- Claim C10 as amended (implicit, structural equality): a composite
instance's `equals` returns true for any value — a plain untyped object or
an instance made by any factory — whose own non-function properties
exactly match, in name and `===`-equal value, the own data properties of
the prototype the method is bound to: the validated fields except any
named valueOf/equals/toString (fields named like custom methods are
shadowed on the frozen instance but still take part in the comparison).
No trace of the producing factory enters the comparison (part_000 lines
113-132). -/
theorem structural_equality (f : Factory) (d : JsEntity)
    (oid protoOid dataOid : Nat)
    (v : VOInstance) (ms : List String) (x : JsEntity)
    (hv : create f d oid protoOid dataOid = .ok v)
    (hprim : f.isPrimitive = false)
    (hms : f.methodsFactory = .ok ms)
    (hne : ms.contains "equals" = false)
    (hxn : entityKeysNodup x)
    (hm : propsMatch (entityDataProps v.proto) (entityDataProps x)) :
    v.equals (some x) = true := by
  have hip := (create_ok_inv hv).2.2.2.2.2.1
  exact equals_true_of_propsMatch (hip.trans hprim) hxn hm

/-- Witness for the amended C10: the Money instance equals a plain untyped
object carrying the same two properties (for Money no field collides with
a method name, so the prototype's data properties are the two validated
fields). -/
theorem structural_equality_witness :
    moneyInst99.equals (some (.plainObj 50 moneyFields99 [])) = true :=
  structural_equality moneyF moneyData99 0 1 2 moneyInst99 ["add"]
    (.plainObj 50 moneyFields99 []) rfl rfl rfl (by decide) (by decide)
    (by decide)

end Domainify
